import Mathlib

/-
Verification of the Binance kline-fetcher module
(`src/binance_integration.py`) against its specification.

Shallow embedding conventions:
* Timestamps (`datetime` values and epoch instants) are modelled as `Int`
  milliseconds since the Unix epoch; `int(pd.Timestamp(t).timestamp() * 1000)`
  is then the identity conversion.
* Floating-point prices/volumes are modelled as `Rat`; a JSON cell is either
  an integer value, a numeric string (carrying the number it denotes), or a
  value on which the pandas float/timestamp conversion fails.
* The network is an explicit parameter `world : Request → FetchOutcome`:
  the outcome of the single `requests.get` call the function performs.
* Observable effects (the returned DataFrame, the `time.sleep(2)` pause and
  the `print` log lines) are collected in a `CallResult` record.
-/

namespace Binance

/-- A constructed HTTP GET request: the URL, query parameters
(`symbol`, `interval`, `limit`, optional `startTime`/`endTime`, all integer
epoch-milliseconds) and the transport timeout in seconds. -/
structure Request where
  url : String
  symbol : String
  interval : String
  limit : Nat
  timeout : Nat
  startTime : Option Int
  endTime : Option Int
  deriving Repr, DecidableEq

/-- The public klines endpoint, `base_url` in the source. -/
def baseUrl : String := "https://data-api.binance.vision/api/v3/klines"

/-- Milliseconds in one day; `pd.Timedelta(days=1)` in epoch-ms. -/
def msPerDay : Int := 86400000

/-- Request construction of `fetch_klines` (source lines 55-67):
start with `symbol`, `interval`, `limit=1000`, timeout 10;
`if start_time:` set `startTime`; `if end_time:` set `endTime`
`elif not start_time:` set the default `startTime = now - days`. -/
def buildRequest (symbol interval : String) (days : Int)
    (start_time end_time : Option Int) (now : Int) : Request :=
  let params : Request :=
    { url := baseUrl, symbol := symbol, interval := interval,
      limit := 1000, timeout := 10, startTime := none, endTime := none }
  let params :=
    match start_time with
    | some t => { params with startTime := some t }
    | none => params
  match end_time with
  | some t => { params with endTime := some t }
  | none =>
    match start_time with
    | some _ => params
    | none => { params with startTime := some (now - days * msPerDay) }

/-- One JSON cell of a kline row, as seen by the pandas conversions:
an integer (e.g. the open-time column), a numeric string carrying the
number it denotes, or a value on which conversion fails. -/
inductive Cell where
  | intVal (n : Int)
  | numStr (q : Rat)
  | badCell (s : String)
  deriving Repr, DecidableEq

/-- Behaviour of `pd.to_datetime(x, unit="ms")` on one cell: succeeds on
an integer millisecond count, fails otherwise. -/
def parseTimestamp : Cell → Option Int
  | .intVal n => some n
  | _ => none

/-- Behaviour of `astype(float)` on one cell: integers and numeric
strings convert, anything else raises. -/
def parseFloat : Cell → Option Rat
  | .intVal n => some (n : Rat)
  | .numStr q => some q
  | .badCell _ => none

/-- One row of the returned DataFrame: the six retained columns
`open_time, open, high, low, close, volume`, in this order. -/
structure KlineRow where
  open_time : Int
  «open» : Rat
  high : Rat
  low : Rat
  close : Rat
  volume : Rat
  deriving Repr, DecidableEq

/-- Conversion of one 12-field response row into a `KlineRow`
(source lines 78-93): the DataFrame constructor requires exactly the 12
named columns; column 0 is parsed as a millisecond timestamp, columns
1-5 as floats, columns 6-11 are dropped.  Any mismatch or conversion
failure fails the whole row (`none`). -/
def parseRow (row : List Cell) : Option KlineRow :=
  match row with
  | [c0, c1, c2, c3, c4, c5, _, _, _, _, _, _] =>
    match parseTimestamp c0, parseFloat c1, parseFloat c2,
        parseFloat c3, parseFloat c4, parseFloat c5 with
    | some t, some o, some h, some l, some c, some v =>
      some ⟨t, o, h, l, c, v⟩
    | _, _, _, _, _, _ => none
  | _ => none

/-- Whole-response conversion: every row must convert, otherwise the whole
call fails (pandas raises on the first bad row; there is no partial
success). -/
def parseRows : List (List Cell) → Option (List KlineRow)
  | [] => some []
  | r :: rs =>
    match parseRow r, parseRows rs with
    | some k, some ks => some (k :: ks)
    | _, _ => none

/-- The body produced by `response.json()`: it may raise (malformed),
return a falsy non-array value (e.g. JSON null) or return an array of
rows. -/
inductive JsonBody where
  | malformed (msg : String)
  | nullBody
  | array (rows : List (List Cell))
  deriving Repr, DecidableEq

/-- Outcome of the single `requests.get` call: either the transport raises
(network error / timeout), or a response with an HTTP status code and a
body arrives. -/
inductive FetchOutcome where
  | netError (msg : String)
  | status (code : Nat) (body : JsonBody)
  deriving Repr, DecidableEq

/-- Whether `response.raise_for_status()` raises: exactly for 4xx/5xx
codes. -/
def raisesForStatus (code : Nat) : Bool :=
  400 ≤ code && code < 600

/-- An emitted log line, kept structured: the warning for an empty payload
(with the symbol and the request parameters used), the success line (with
the symbol and the row count) and the error line (with the symbol and the
exception detail). -/
inductive LogMsg where
  | warnNoData (symbol : String) (params : Request)
  | okFetched (symbol : String) (rowCount : Nat)
  | errorApi (symbol : String) (detail : String)
  deriving Repr, DecidableEq

/-- Everything a call to `fetch_klines` is observed to do: the returned
table, how many seconds it slept, and the log lines it printed. -/
structure CallResult where
  table : List KlineRow
  sleepSeconds : Nat
  logs : List LogMsg
  deriving Repr, DecidableEq

/-- The `except` branch of `fetch_klines` (source lines 98-101): log the
error with the symbol and the exception text, `time.sleep(2)`, return an
empty DataFrame. -/
def errorResult (symbol detail : String) : CallResult :=
  { table := [], sleepSeconds := 2, logs := [.errorApi symbol detail] }

/-- The function `fetch_klines` (source lines 39-101), with the clock
`now` and the network `world` made explicit.  `start_time`/`end_time`
are optional epoch-millisecond instants. -/
def fetch_klines (symbol interval : String) (days : Int)
    (start_time end_time : Option Int) (now : Int)
    (world : Request → FetchOutcome) : CallResult :=
  let params := buildRequest symbol interval days start_time end_time now
  match world params with
  | .netError msg => errorResult symbol msg
  | .status code body =>
    if raisesForStatus code then
      errorResult symbol ("HTTPError " ++ toString code)
    else
      match body with
      | .malformed msg => errorResult symbol msg
      | .nullBody =>
        { table := [], sleepSeconds := 0, logs := [.warnNoData symbol params] }
      | .array rows =>
        if rows.isEmpty then
          { table := [], sleepSeconds := 0, logs := [.warnNoData symbol params] }
        else
          match parseRows rows with
          | none => errorResult symbol "row conversion error"
          | some ks =>
            { table := ks, sleepSeconds := 0,
              logs := [.okFetched symbol ks.length] }

/-- The set of outcomes on which the body of `fetch_klines` raises and the
`except` branch runs: a transport exception, a 4xx/5xx status, a malformed
JSON body, or a non-empty array with a failing row conversion. -/
def isFailure : FetchOutcome → Bool
  | .netError _ => true
  | .status code body =>
    raisesForStatus code ||
    (match body with
     | .malformed _ => true
     | .nullBody => false
     | .array rows => !rows.isEmpty && (parseRows rows).isNone)

/-- The configuration surface `get_secret` reads: the optional Streamlit
module with its section-keyed secret store, and the process environment
(after `load_dotenv`). -/
structure SecretsEnv where
  streamlitSecrets : Option (String → Option (String → Option String))
  env : String → Option String

/-- The function `get_secret` (source lines 24-28): the Streamlit secret
store's `"general"` section is consulted first, then `os.getenv`. -/
def get_secret (key : String) (e : SecretsEnv) : Option String :=
  match e.streamlitSecrets with
  | some secrets =>
    match secrets "general" with
    | some gen =>
      match gen key with
      | some v => some v
      | none => e.env key
    | none => e.env key
  | none => e.env key

/-- What the Streamlit-store lookup alone yields: the value under `key` in
the `"general"` section, when streamlit is importable, the section exists
and the key is present; `none` otherwise. -/
def storeHit (key : String) (e : SecretsEnv) : Option String :=
  match e.streamlitSecrets with
  | some secrets =>
    match secrets "general" with
    | some gen => gen key
    | none => none
  | none => none

/-- Module-level credential load (source line 32). -/
def BINANCE_API_KEY (e : SecretsEnv) : Option String :=
  get_secret "BINANCE_API_KEY" e

/-- Module-level credential load (source line 33). -/
def BINANCE_API_SECRET (e : SecretsEnv) : Option String :=
  get_secret "BINANCE_API_SECRET" e

/-- A call to `fetch_klines` as made from the loaded module: the two
credential globals have been populated from `e`, and the fetch itself
runs. -/
def module_fetch_klines (e : SecretsEnv) (symbol interval : String)
    (days : Int) (start_time end_time : Option Int) (now : Int)
    (world : Request → FetchOutcome) : CallResult :=
  let _key := BINANCE_API_KEY e
  let _secret := BINANCE_API_SECRET e
  fetch_klines symbol interval days start_time end_time now world

/-- The open-time field of a raw response row: column 0 parsed as a
millisecond timestamp. -/
def rawTs (row : List Cell) : Option Int :=
  match row with
  | c :: _ => parseTimestamp c
  | [] => none

/-- Adjacent-pair ordering of two raw rows by their open-time column
(vacuously true when a column is unparseable). -/
def rowTsLE (a b : List Cell) : Bool :=
  match rawTs a, rawTs b with
  | some x, some y => decide (x ≤ y)
  | _, _ => true

/-- The endpoint contract on a returned array: rows ascending by their
open-time column. -/
def rowsSorted : List (List Cell) → Bool
  | [] => true
  | [_] => true
  | a :: b :: rest => rowTsLE a b && rowsSorted (b :: rest)

/-- The result-table ordering: rows ascending by `open_time`. -/
def sortedByOpenTime : List KlineRow → Bool
  | [] => true
  | [_] => true
  | a :: b :: rest => decide (a.open_time ≤ b.open_time) && sortedByOpenTime (b :: rest)

/-! Concrete worlds and payloads used by the witnesses. -/

/-- A world in which the transport raises (e.g. unreachable host). -/
def wBoom : Request → FetchOutcome := fun _ => .netError "connection refused"

/-- A world replying 200 with an empty JSON array. -/
def wEmpty : Request → FetchOutcome := fun _ => .status 200 (.array [])

/-- A well-formed 12-field kline row with open time 1. -/
def sampleRow1 : List Cell :=
  [.intVal 1, .numStr 2, .numStr 3, .numStr 1, .numStr 2, .numStr 5,
   .intVal 3599999, .numStr 9, .intVal 4, .numStr 6, .numStr 4, .numStr 0]

/-- A well-formed 12-field kline row with open time 7. -/
def sampleRow2 : List Cell :=
  [.intVal 7, .numStr 2, .numStr 4, .numStr 2, .numStr 3, .numStr 6,
   .intVal 7199999, .numStr 9, .intVal 4, .numStr 6, .numStr 4, .numStr 0]

/-- The `KlineRow` that `sampleRow1` converts to. -/
def sampleK1 : KlineRow := ⟨1, 2, 3, 1, 2, 5⟩

/-- The `KlineRow` that `sampleRow2` converts to. -/
def sampleK2 : KlineRow := ⟨7, 2, 4, 2, 3, 6⟩

/-- A world replying 200 with two well-formed rows in ascending order. -/
def wData : Request → FetchOutcome :=
  fun _ => .status 200 (.array [sampleRow1, sampleRow2])

/-! Helper lemmas about the row conversion. -/

theorem parseRows_length (rows : List (List Cell)) (ks : List KlineRow)
    (h : parseRows rows = some ks) : ks.length = rows.length := by
  induction rows generalizing ks with
  | nil =>
    simp only [parseRows, Option.some.injEq] at h
    subst h; rfl
  | cons r rs ih =>
    simp only [parseRows] at h
    cases hr : parseRow r with
    | none => rw [hr] at h; simp at h
    | some k =>
      cases hrs : parseRows rs with
      | none => rw [hr, hrs] at h; simp at h
      | some ks' =>
        rw [hr, hrs] at h
        simp only [Option.some.injEq] at h
        subst h
        simp [ih ks' hrs]

theorem parseRows_get (rows : List (List Cell)) (ks : List KlineRow)
    (h : parseRows rows = some ks) (i : Nat) (hi : i < rows.length)
    (hk : i < ks.length) :
    parseRow (rows.get ⟨i, hi⟩) = some (ks.get ⟨i, hk⟩) := by
  induction rows generalizing ks i with
  | nil => exact absurd hi (by simp)
  | cons r rs ih =>
    simp only [parseRows] at h
    cases hr : parseRow r with
    | none => rw [hr] at h; simp at h
    | some k =>
      cases hrs : parseRows rs with
      | none => rw [hr, hrs] at h; simp at h
      | some ks' =>
        rw [hr, hrs] at h
        simp only [Option.some.injEq] at h
        subst h
        cases i with
        | zero => simpa using hr
        | succ j =>
          simp only [List.get_cons_succ]
          exact ih ks' hrs j (Nat.lt_of_succ_lt_succ hi) (Nat.lt_of_succ_lt_succ hk)

theorem parseRow_shape (row : List Cell) (k : KlineRow)
    (h : parseRow row = some k) :
    ∃ c0 c1 c2 c3 c4 c5 c6 c7 c8 c9 c10 c11,
      row = [c0, c1, c2, c3, c4, c5, c6, c7, c8, c9, c10, c11] ∧
      parseTimestamp c0 = some k.open_time ∧
      parseFloat c1 = some k.«open» ∧
      parseFloat c2 = some k.high ∧
      parseFloat c3 = some k.low ∧
      parseFloat c4 = some k.close ∧
      parseFloat c5 = some k.volume := by
  unfold parseRow at h
  split at h
  case h_2 => exact absurd h (by simp)
  case h_1 c0 c1 c2 c3 c4 c5 c6 c7 c8 c9 c10 c11 =>
    split at h
    case h_2 => exact absurd h (by simp)
    case h_1 t o oh ol oc ov ht ho hhigh hlow hclose hvol =>
      simp only [Option.some.injEq] at h
      subst h
      exact ⟨c0, c1, c2, c3, c4, c5, c6, c7, c8, c9, c10, c11,
        rfl, ht, ho, hhigh, hlow, hclose, hvol⟩

theorem parseRow_rawTs (row : List Cell) (k : KlineRow)
    (h : parseRow row = some k) : rawTs row = some k.open_time := by
  obtain ⟨c0, _, _, _, _, _, _, _, _, _, _, _, hrow, ht, _⟩ :=
    parseRow_shape row k h
  rw [hrow]
  exact ht

theorem parseRows_sorted_transfer (rows : List (List Cell)) (ks : List KlineRow)
    (h : parseRows rows = some ks) (hs : rowsSorted rows = true) :
    sortedByOpenTime ks = true := by
  induction rows generalizing ks with
  | nil =>
    simp only [parseRows, Option.some.injEq] at h
    subst h; rfl
  | cons r rs ih =>
    simp only [parseRows] at h
    cases hr : parseRow r with
    | none => rw [hr] at h; simp at h
    | some k =>
      cases hrs : parseRows rs with
      | none => rw [hr, hrs] at h; simp at h
      | some ks' =>
        rw [hr, hrs] at h
        simp only [Option.some.injEq] at h
        subst h
        cases rs with
        | nil =>
          simp only [parseRows, Option.some.injEq] at hrs
          subst hrs; rfl
        | cons r2 rs2 =>
          simp only [parseRows] at hrs
          cases hr2 : parseRow r2 with
          | none => rw [hr2] at hrs; simp at hrs
          | some k2 =>
            cases hrs2 : parseRows rs2 with
            | none => rw [hr2, hrs2] at hrs; simp at hrs
            | some ks2 =>
              rw [hr2, hrs2] at hrs
              simp only [Option.some.injEq] at hrs
              subst hrs
              simp only [rowsSorted, Bool.and_eq_true] at hs
              have htail : sortedByOpenTime (k2 :: ks2) = true := by
                apply ih
                · simp [parseRows, hr2, hrs2]
                · exact hs.2
              simp only [sortedByOpenTime, Bool.and_eq_true, htail,
                and_true, decide_eq_true_eq]
              have hle := hs.1
              unfold rowTsLE at hle
              rw [parseRow_rawTs r k hr, parseRow_rawTs r2 k2 hr2] at hle
              simpa using hle

/-! The claims. -/

/-- Claim C1: `fetch_klines` never propagates an exception: on any failure
(network error, timeout, 4xx/5xx status, malformed response, or a
row-level conversion failure — which fails the entire call, with no
partial success) the exception is caught, an error line with the symbol
and the error detail is logged, a fixed 2-second pause is performed, and
an empty table is returned. -/
theorem fetch_klines_failure_collapses (symbol interval : String)
    (days now : Int) (start_time end_time : Option Int)
    (world : Request → FetchOutcome)
    (h : isFailure (world (buildRequest symbol interval days start_time end_time now)) = true) :
    (fetch_klines symbol interval days start_time end_time now world).table = [] ∧
    (fetch_klines symbol interval days start_time end_time now world).sleepSeconds = 2 ∧
    ∃ d, (fetch_klines symbol interval days start_time end_time now world).logs
        = [LogMsg.errorApi symbol d] := by
  simp only [fetch_klines]
  cases hw : world (buildRequest symbol interval days start_time end_time now) with
  | netError msg => exact ⟨rfl, rfl, msg, rfl⟩
  | status code body =>
    rw [hw] at h
    simp only [isFailure] at h
    by_cases hr : raisesForStatus code = true
    · simp only [hr, if_true]
      exact ⟨rfl, rfl, "HTTPError " ++ toString code, rfl⟩
    · have hrf : raisesForStatus code = false := by
        simpa using hr
      rw [hrf] at h
      simp only [Bool.false_or] at h
      simp only [hrf, Bool.false_eq_true, if_false]
      cases body with
      | malformed msg => exact ⟨rfl, rfl, msg, rfl⟩
      | nullBody => simp at h
      | array rows =>
        simp only [Bool.and_eq_true, Bool.not_eq_eq_eq_not, Bool.not_true,
          Option.isNone_iff_eq_none] at h
        simp only [h.1, Bool.false_eq_true, if_false, h.2]
        exact ⟨rfl, rfl, "row conversion error", rfl⟩

/-- Witness for C1: a network failure at concrete inputs yields the empty
table, the 2-second sleep and an error log line naming the symbol. -/
theorem fetch_klines_failure_collapses_witness :
    (fetch_klines "BTCUSDT" "1h" 30 none none 0 wBoom).table = [] ∧
    (fetch_klines "BTCUSDT" "1h" 30 none none 0 wBoom).sleepSeconds = 2 ∧
    ∃ d, (fetch_klines "BTCUSDT" "1h" 30 none none 0 wBoom).logs
        = [LogMsg.errorApi "BTCUSDT" d] :=
  fetch_klines_failure_collapses "BTCUSDT" "1h" 30 0 none none wBoom rfl

/-- Counterexample to C2 as stated: in the call with `start_time = none`
and `end_time = some 1`, no `startTime` parameter is set at all, so it
does not equal `now - days` in epoch-milliseconds. -/
theorem default_start_counterexample :
    ¬ ((buildRequest "BTCUSDT" "1h" 30 none (some 1) 0).startTime
        = some (0 - 30 * msPerDay)) := by
  decide

/-- Claim C2 (amended): for every call in which neither `start_time` nor
`end_time` is given, the request's `startTime` is the current UTC time
minus `days`, in epoch-milliseconds. -/
theorem default_start_when_no_bounds (symbol interval : String)
    (days now : Int) :
    (buildRequest symbol interval days none none now).startTime
      = some (now - days * msPerDay) := rfl

/-- Claim C3: when `end_time` is provided and `start_time` is not, the
request carries an `endTime` upper bound and no `startTime` parameter. -/
theorem end_only_request_has_no_start (symbol interval : String)
    (days now t : Int) :
    (buildRequest symbol interval days none (some t) now).startTime = none ∧
    (buildRequest symbol interval days none (some t) now).endTime = some t :=
  ⟨rfl, rfl⟩

/-- Claim C4: every call builds exactly one GET request to the klines
endpoint — the result depends on the network only through its answer to
that one request — and the request always carries the given symbol, the
given interval, `limit = 1000` and a 10-second timeout; a provided
`start_time` becomes `startTime` and a provided `end_time` becomes
`endTime`, in integer epoch-milliseconds. -/
theorem request_shape (symbol interval : String) (days now : Int)
    (s e : Option Int) (w1 w2 : Request → FetchOutcome)
    (hw : w1 (buildRequest symbol interval days s e now)
        = w2 (buildRequest symbol interval days s e now)) :
    (buildRequest symbol interval days s e now).url = baseUrl ∧
    (buildRequest symbol interval days s e now).symbol = symbol ∧
    (buildRequest symbol interval days s e now).interval = interval ∧
    (buildRequest symbol interval days s e now).limit = 1000 ∧
    (buildRequest symbol interval days s e now).timeout = 10 ∧
    (∀ t, s = some t →
      (buildRequest symbol interval days s e now).startTime = some t) ∧
    (∀ t, e = some t →
      (buildRequest symbol interval days s e now).endTime = some t) ∧
    fetch_klines symbol interval days s e now w1
      = fetch_klines symbol interval days s e now w2 := by
  refine ⟨?_, ?_, ?_, ?_, ?_, ?_, ?_, ?_⟩
  · cases s <;> cases e <;> rfl
  · cases s <;> cases e <;> rfl
  · cases s <;> cases e <;> rfl
  · cases s <;> cases e <;> rfl
  · cases s <;> cases e <;> rfl
  · rintro t rfl; cases e <;> rfl
  · rintro t rfl; cases s <;> rfl
  · simp only [fetch_klines]
    rw [hw]

/-- Witness for C4 at concrete inputs: the limit, timeout and time-range
parameters of the built request, and insensitivity to the world beyond
the one request. -/
theorem request_shape_witness :
    (buildRequest "BTCUSDT" "1h" 30 (some 5) (some 9) 777).limit = 1000 ∧
    (buildRequest "BTCUSDT" "1h" 30 (some 5) (some 9) 777).timeout = 10 ∧
    (buildRequest "BTCUSDT" "1h" 30 (some 5) (some 9) 777).startTime = some 5 ∧
    (buildRequest "BTCUSDT" "1h" 30 (some 5) (some 9) 777).endTime = some 9 ∧
    fetch_klines "BTCUSDT" "1h" 30 (some 5) (some 9) 777 wEmpty
      = fetch_klines "BTCUSDT" "1h" 30 (some 5) (some 9) 777 wEmpty :=
  ⟨(request_shape "BTCUSDT" "1h" 30 777 (some 5) (some 9) wEmpty wEmpty rfl).2.2.2.1,
   (request_shape "BTCUSDT" "1h" 30 777 (some 5) (some 9) wEmpty wEmpty rfl).2.2.2.2.1,
   (request_shape "BTCUSDT" "1h" 30 777 (some 5) (some 9) wEmpty wEmpty rfl).2.2.2.2.2.1 5 rfl,
   (request_shape "BTCUSDT" "1h" 30 777 (some 5) (some 9) wEmpty wEmpty rfl).2.2.2.2.2.2.1 9 rfl,
   (request_shape "BTCUSDT" "1h" 30 777 (some 5) (some 9) wEmpty wEmpty rfl).2.2.2.2.2.2.2⟩

/-- Claim C5: a 2xx response whose JSON body is an empty array (or a falsy
non-array value) yields the empty table — not an error, no sleep — and a
warning carrying the symbol and the request parameters used. -/
theorem empty_payload_result (symbol interval : String) (days now : Int)
    (s e : Option Int) (world : Request → FetchOutcome)
    (code : Nat) (body : JsonBody)
    (hc : 200 ≤ code ∧ code < 300)
    (hb : body = JsonBody.nullBody ∨ body = JsonBody.array [])
    (hw : world (buildRequest symbol interval days s e now) = .status code body) :
    fetch_klines symbol interval days s e now world
      = { table := [], sleepSeconds := 0,
          logs := [LogMsg.warnNoData symbol
            (buildRequest symbol interval days s e now)] } := by
  have hrf : raisesForStatus code = false := by
    simp only [raisesForStatus, Bool.and_eq_false_iff]
    left
    simpa using by omega
  simp only [fetch_klines]
  rw [hw]
  rcases hb with rfl | rfl <;>
    simp [hrf]

/-- Witness for C5: the concrete empty-array world at concrete inputs. -/
theorem empty_payload_result_witness :
    fetch_klines "BTCUSDT" "1h" 30 none none 0 wEmpty
      = { table := [], sleepSeconds := 0,
          logs := [LogMsg.warnNoData "BTCUSDT"
            (buildRequest "BTCUSDT" "1h" 30 none none 0)] } :=
  empty_payload_result "BTCUSDT" "1h" 30 0 none none wEmpty 200
    (.array []) ⟨by decide, by decide⟩ (Or.inr rfl) rfl

/-- Claim C6: on a 2xx response with a non-empty array whose rows all
convert, the returned table is exactly the converted rows: one `KlineRow`
per response row, whose six fields `open_time, open, high, low, close,
volume` (the only columns of the table, in this order) come from columns
0-5 of that row — column 0 read as a millisecond timestamp, columns 1-5
as floats — with the remaining six columns dropped. -/
theorem success_row_mapping (symbol interval : String) (days now : Int)
    (s e : Option Int) (world : Request → FetchOutcome)
    (code : Nat) (rows : List (List Cell)) (ks : List KlineRow)
    (hc : 200 ≤ code ∧ code < 300)
    (hw : world (buildRequest symbol interval days s e now)
        = .status code (.array rows))
    (hne : rows ≠ [])
    (hp : parseRows rows = some ks) :
    (fetch_klines symbol interval days s e now world).table = ks ∧
    ks.length = rows.length ∧
    ∀ i (hi : i < rows.length) (hk : i < ks.length),
      ∃ c0 c1 c2 c3 c4 c5 c6 c7 c8 c9 c10 c11,
        rows.get ⟨i, hi⟩
          = [c0, c1, c2, c3, c4, c5, c6, c7, c8, c9, c10, c11] ∧
        parseTimestamp c0 = some (ks.get ⟨i, hk⟩).open_time ∧
        parseFloat c1 = some (ks.get ⟨i, hk⟩).«open» ∧
        parseFloat c2 = some (ks.get ⟨i, hk⟩).high ∧
        parseFloat c3 = some (ks.get ⟨i, hk⟩).low ∧
        parseFloat c4 = some (ks.get ⟨i, hk⟩).close ∧
        parseFloat c5 = some (ks.get ⟨i, hk⟩).volume := by
  have hrf : raisesForStatus code = false := by
    simp only [raisesForStatus, Bool.and_eq_false_iff]
    left
    simpa using by omega
  refine ⟨?_, parseRows_length rows ks hp, ?_⟩
  · simp only [fetch_klines]
    rw [hw]
    simp [hrf, hne, hp]
  · intro i hi hk
    exact parseRow_shape (rows.get ⟨i, hi⟩) (ks.get ⟨i, hk⟩)
      (parseRows_get rows ks hp i hi hk)

/-- Witness for C6: the two-row world converts to the two sample
`KlineRow`s. -/
theorem success_row_mapping_witness :
    (fetch_klines "BTCUSDT" "1h" 30 none none 0 wData).table
      = [sampleK1, sampleK2] :=
  (success_row_mapping "BTCUSDT" "1h" 30 0 none none wData 200
    [sampleRow1, sampleRow2] [sampleK1, sampleK2]
    ⟨by decide, by decide⟩ rfl (by decide) rfl).1

/-- Claim C7: `get_secret` is total (it never raises) and resolves a
non-empty key in order: the Streamlit secret store's `"general"` section
first, then the environment variable of the same name, and `none` when
the key is in neither source. -/
theorem get_secret_resolution (key : String) (e : SecretsEnv)
    ( _hk : key ≠ "") :
    (∀ v, storeHit key e = some v → get_secret key e = some v) ∧
    (storeHit key e = none → get_secret key e = e.env key) ∧
    (storeHit key e = none → e.env key = none → get_secret key e = none) := by
  have h2 : storeHit key e = none → get_secret key e = e.env key := by
    intro hn
    simp only [storeHit] at hn
    cases hs : e.streamlitSecrets with
    | none => simp [get_secret, hs]
    | some secrets =>
      rw [hs] at hn
      simp only at hn
      cases hg : secrets "general" with
      | none => simp [get_secret, hs, hg]
      | some gen =>
        rw [hg] at hn
        simp only at hn
        simp [get_secret, hs, hg, hn]
  refine ⟨?_, h2, fun hn he => (h2 hn).trans he⟩
  intro v hv
  simp only [storeHit] at hv
  cases hs : e.streamlitSecrets with
  | none => rw [hs] at hv; simp at hv
  | some secrets =>
    rw [hs] at hv
    simp only at hv
    cases hg : secrets "general" with
    | none => rw [hg] at hv; simp at hv
    | some gen =>
      rw [hg] at hv
      simp only at hv
      simp [get_secret, hs, hg, hv]

/-- Witness for C7: with no Streamlit store and an empty environment, the
lookup of a concrete non-empty key is `none`. -/
theorem get_secret_resolution_witness :
    get_secret "BINANCE_API_KEY" ⟨none, fun _ => none⟩ = none :=
  (get_secret_resolution "BINANCE_API_KEY" ⟨none, fun _ => none⟩
    (by decide)).2.2 rfl rfl

/-- Claim C8: the two credential globals `BINANCE_API_KEY` and
`BINANCE_API_SECRET` are loaded but never transmitted: for any two secret
environments — hence any two assignments of the credential pair — a
module-level call to `fetch_klines` makes the same request to the same
world and returns the same result. -/
theorem credentials_not_transmitted (e1 e2 : SecretsEnv)
    (symbol interval : String) (days now : Int) (s t : Option Int)
    (world : Request → FetchOutcome) :
    module_fetch_klines e1 symbol interval days s t now world
      = module_fetch_klines e2 symbol interval days s t now world := rfl

/-- Claim C9: against an endpoint that honors its contract — every array
it returns has at most 1000 rows (the page limit requested) and is
ascending by the open-time column — every call's result table is
ascending by `open_time` and has at most 1000 rows. -/
theorem result_sorted_and_bounded (symbol interval : String)
    (days now : Int) (s e : Option Int) (world : Request → FetchOutcome)
    (hcontract : ∀ code rows,
        world (buildRequest symbol interval days s e now)
          = .status code (.array rows) →
        rows.length ≤ 1000 ∧ rowsSorted rows = true) :
    (fetch_klines symbol interval days s e now world).table.length ≤ 1000 ∧
    sortedByOpenTime (fetch_klines symbol interval days s e now world).table
      = true := by
  simp only [fetch_klines]
  cases hw : world (buildRequest symbol interval days s e now) with
  | netError msg => exact ⟨by simp [errorResult], rfl⟩
  | status code body =>
    by_cases hr : raisesForStatus code = true
    · simp only [hr, if_true]
      exact ⟨by simp [errorResult], rfl⟩
    · have hrf : raisesForStatus code = false := by simpa using hr
      simp only [hrf, Bool.false_eq_true, if_false]
      cases body with
      | malformed msg => exact ⟨by simp [errorResult], rfl⟩
      | nullBody => exact ⟨by simp, rfl⟩
      | array rows =>
        by_cases hne : rows.isEmpty = true
        · simp only [hne, if_true]
          exact ⟨by simp, rfl⟩
        · have hne' : rows.isEmpty = false := by simpa using hne
          simp only [hne', Bool.false_eq_true, if_false]
          cases hp : parseRows rows with
          | none => exact ⟨by simp [errorResult], rfl⟩
          | some ks =>
            obtain ⟨hlen, hsort⟩ := hcontract code rows hw
            refine ⟨?_, ?_⟩
            · simpa [parseRows_length rows ks hp] using hlen
            · simpa using parseRows_sorted_transfer rows ks hp hsort

/-- Witness for C9: the concrete two-row ascending world yields a table
that is ascending by open time and within the page limit. -/
theorem result_sorted_and_bounded_witness :
    (fetch_klines "BTCUSDT" "1h" 30 none none 0 wData).table.length ≤ 1000 ∧
    sortedByOpenTime (fetch_klines "BTCUSDT" "1h" 30 none none 0 wData).table
      = true :=
  result_sorted_and_bounded "BTCUSDT" "1h" 30 0 none none wData
    (by
      intro code rows h
      have h' : FetchOutcome.status 200 (.array [sampleRow1, sampleRow2])
          = .status code (.array rows) := h
      injection h' with h1 h2
      subst h1
      injection h2 with h3
      subst h3
      exact ⟨by decide, by decide⟩)

/-- Claim C10: the 2-second pause happens only when the body raised: a
non-sleeping run can only be produced by a non-failure outcome, and in
particular a 2xx response with an empty array returns the empty table
with no sleep, and a 2xx response whose rows all convert also performs
no sleep. -/
theorem sleep_only_on_failure (symbol interval : String) (days now : Int)
    (s e : Option Int) (world : Request → FetchOutcome) :
    ((fetch_klines symbol interval days s e now world).sleepSeconds ≠ 0 →
      isFailure (world (buildRequest symbol interval days s e now)) = true) ∧
    (∀ code rows,
      world (buildRequest symbol interval days s e now)
        = .status code (.array rows) →
      raisesForStatus code = false →
      (rows = [] →
        (fetch_klines symbol interval days s e now world).sleepSeconds = 0 ∧
        (fetch_klines symbol interval days s e now world).table = []) ∧
      (∀ ks, parseRows rows = some ks →
        (fetch_klines symbol interval days s e now world).sleepSeconds = 0)) := by
  constructor
  · intro hs
    by_contra hfail
    have hff : isFailure (world (buildRequest symbol interval days s e now))
        = false := by simpa using hfail
    apply hs
    simp only [fetch_klines]
    cases hw : world (buildRequest symbol interval days s e now) with
    | netError msg => rw [hw] at hff; simp [isFailure] at hff
    | status code body =>
      rw [hw] at hff
      simp only [isFailure, Bool.or_eq_false_iff] at hff
      obtain ⟨hrf, hbf⟩ := hff
      simp only [hrf, Bool.false_eq_true, if_false]
      cases body with
      | malformed msg => simp at hbf
      | nullBody => rfl
      | array rows =>
        simp only [Bool.and_eq_false_iff, Bool.not_eq_eq_eq_not, Bool.not_false,
          Option.isNone_eq_false_iff, Option.isSome_iff_exists] at hbf
        rcases hbf with hemp | ⟨ks, hks⟩
        · simp [hemp]
        · rcases hemp : rows.isEmpty with _ | _
          · simp [hemp, hks]
          · simp [hemp]
  · intro code rows hw hrf
    constructor
    · rintro rfl
      simp only [fetch_klines]
      rw [hw]
      simp [hrf]
    · intro ks hks
      simp only [fetch_klines]
      rw [hw]
      rcases hemp : rows.isEmpty with _ | _
      · simp [hrf, hemp, hks]
      · simp [hrf, hemp]

/-- Witness for C10: the concrete empty-array world returns immediately
with no sleep and an empty table. -/
theorem sleep_only_on_failure_witness :
    (fetch_klines "BTCUSDT" "1h" 30 none none 0 wEmpty).sleepSeconds = 0 ∧
    (fetch_klines "BTCUSDT" "1h" 30 none none 0 wEmpty).table = [] :=
  ((sleep_only_on_failure "BTCUSDT" "1h" 30 0 none none wEmpty).2
    200 [] rfl rfl).1 rfl

end Binance
